import Mathlib

/-!
Verification of the crawl scheduling and execution engine of the
cattle-farm contact scraper: shallow embedding of the URL frontier,
job store, query ledger, rate limiter, robots gate, page fetcher and
URL processor, with theorems settling the spec claims.

Source files embedded: app/db/queries.py, app/worker/orchestrator.py,
app/worker/url_processor.py, app/worker/job_manager.py,
app/utils/rate_limiter.py, app/utils/robots_checker.py,
app/scraper/page_fetcher.py, app/discovery/search_discovery.py.
-/

namespace CattleScraper

/-- Model of a parsed URL (Python `urllib.parse.urlparse`), restricted to the
fields used by the code: scheme, netloc (domain) and path. -/
structure Url where
  scheme : String
  netloc : String
  path : String
deriving DecidableEq

/-- Render a `Url` back to the string the Python code passes around. -/
def Url.toStr (u : Url) : String :=
  u.scheme ++ "://" ++ u.netloc ++ u.path

/-! ## Data model: rows of the durable store (app/db/queries.py)

List order models `created_at` order: rows are appended on creation and
`.order("created_at")` returns them in list order. -/

/-- A row of the `urls` table (the Frontier). -/
structure UrlRow where
  url : String
  status : String
  source : String
  stateTarget : String
  discoveredBy : String
  country : String
  emailsFound : Nat
  error : String
  processedAt : Option Nat
deriving DecidableEq

/-- A row of the `scrape_jobs` table. -/
structure JobRow where
  id : Nat
  jobType : String
  states : List String
  status : String
  error : String
  totalQueries : Nat
deriving DecidableEq

/-- A row of the `search_queries` table (the QueryLedger). -/
structure QueryRow where
  query : String
  executedAt : Nat
  resultsCount : Nat
  urlsFound : Nat
  jobId : Option Nat
deriving DecidableEq

/-- A row of the `contacts` table (keyed by normalized email). -/
structure ContactRecord where
  email : String
  farmName : String
  ownerName : String
  phone : String
  address : String
  city : String
  state : String
  zipCode : String
  country : String
  website : String
  facebook : String
  instagram : String
  cattleType : String
  breed : String
  headCount : String
  sourceUrl : String
deriving DecidableEq

/-- The durable store: the tables the core reads and writes. -/
structure Db where
  urls : List UrlRow
  jobs : List JobRow
  queries : List QueryRow
  contacts : List ContactRecord
deriving DecidableEq

/-! ## Job country encoding (queries.py create_job / job_manager.py _decode_country) -/

/-- `create_job`'s country encoding: country is stored in `job_type` as
`'job_type:country'` for non-US countries and the bare `job_type` for US. -/
def encodeJobType (jobType country : String) : String :=
  if country ≠ "US" then jobType ++ ":" ++ country else jobType

/-- `create_job` (queries.py): insert a new queued job row with the encoded type. -/
def create_job (jobType : String) (states : List String) (totalQueries : Nat)
    (country : String) (id : Nat) : JobRow :=
  { id := id, jobType := encodeJobType jobType country, states := states,
    status := "queued", error := "", totalQueries := totalQueries }

/-- Python `jt.split(":", 1)` on character lists: text before the first colon
and text after it (the colon removed). -/
def splitOnceColon : List Char → List Char × List Char
  | [] => ([], [])
  | c :: rest =>
    if c = ':' then ([], rest)
    else
      let p := splitOnceColon rest
      (c :: p.1, p.2)

/-- `JobManager._decode_country`: decode `(job_type, country)` from the stored
`job_type` field; a field with no colon means country US. -/
def decode_country (jt : String) : String × String :=
  if jt.data.contains ':' then
    let p := splitOnceColon jt.data
    (String.mk p.1, String.mk p.2)
  else (jt, "US")

/-! ## Lightweight HTTP fetch with retries (page_fetcher.py _fetch_httpx) -/

/-- `config.py`: retry budget for the lightweight fetch. -/
def MAX_RETRIES : Nat := 3

/-- `config.py`: exponential backoff base (2.0 seconds in the source). -/
def RETRY_BACKOFF : Nat := 2

/-- Result of `PageFetcher.fetch` / `_fetch_httpx` / `_fetch_playwright`,
mirroring the `FetchResult` dataclass. -/
structure FetchResult where
  url : String
  html : String
  statusCode : Nat
  usedPlaywright : Bool
  success : Bool
  error : Option String
deriving DecidableEq

/-- Outcome of one network attempt by the httpx client: either an HTTP
response (status and body) or a raised exception (timeout, connection
error, ...). -/
inductive HttpAttempt
  | resp (status : Nat) (body : String)
  | exc (msg : String)
deriving DecidableEq

/-- Output of the httpx fetch: the result, the number of network attempts
performed, and the list of backoff sleeps (in seconds) performed between
attempts. -/
structure HttpxOut where
  result : FetchResult
  attempts : Nat
  waits : List Nat
deriving DecidableEq

/-- `PageFetcher._fetch_httpx`: one attempt per script entry. Status 200
succeeds; status 429 is retried with backoff `RETRY_BACKOFF ^ (retries+1)`
while `retries < MAX_RETRIES`; any other status fails immediately; a raised
exception is retried with the same backoff while `retries < MAX_RETRIES`,
then fails. The script supplies one network outcome per attempt; an
exhausted script (never reached from a sufficiently long script) yields a
designated out-of-model failure. -/
def fetchHttpx (url : String) (retries : Nat) : List HttpAttempt → HttpxOut
  | [] => ⟨⟨url, "", 0, false, false, some "script exhausted"⟩, 0, []⟩
  | .resp s body :: rest =>
    if s = 200 then
      ⟨⟨url, body, s, false, true, none⟩, 1, []⟩
    else if s = 429 ∧ retries < MAX_RETRIES then
      let o := fetchHttpx url (retries + 1) rest
      ⟨o.result, o.attempts + 1, RETRY_BACKOFF ^ (retries + 1) :: o.waits⟩
    else
      ⟨⟨url, body, s, false, false, some ("HTTP " ++ toString s)⟩, 1, []⟩
  | .exc msg :: rest =>
    if retries < MAX_RETRIES then
      let o := fetchHttpx url (retries + 1) rest
      ⟨o.result, o.attempts + 1, RETRY_BACKOFF ^ (retries + 1) :: o.waits⟩
    else
      ⟨⟨url, "", 0, false, false, some msg⟩, 1, []⟩

/-! ## Frontier operations (queries.py, urls table) -/

/-- Look up the row for a URL (`.eq("url", url)` against the unique key). -/
def findUrlRow (url : String) (store : List UrlRow) : Option UrlRow :=
  store.find? (fun r => r.url == url)

/-- A fresh `pending` row as inserted by `add_urls`. -/
def pendingRow (url source stateTarget discoveredBy country : String) : UrlRow :=
  { url := url, status := "pending", source := source, stateTarget := stateTarget,
    discoveredBy := discoveredBy, country := country, emailsFound := 0, error := "",
    processedAt := none }

/-- `add_urls` (queries.py): upsert each URL with `on_conflict="url"` and
`ignore_duplicates=True` — a URL already present leaves its row untouched
and is not counted; an unseen URL is inserted as `pending` and counted.
The source sends the URLs in batches of 100; the store applies each batch
row by row with ON CONFLICT DO NOTHING, so the net effect is this fold. -/
def add_urls (urls : List String) (source stateTarget discoveredBy country : String)
    (store : List UrlRow) : List UrlRow × Nat :=
  urls.foldl
    (fun acc u =>
      if (findUrlRow u acc.1).isSome then acc
      else (acc.1 ++ [pendingRow u source stateTarget discoveredBy country], acc.2 + 1))
    (store, 0)

/-- First phase of `get_pending_urls`: the SELECT — up to `limit` oldest
`pending` rows, optionally filtered to one country. -/
def selectPendingUrls (limit : Nat) (country : String) (store : List UrlRow) : List String :=
  (((store.filter
      (fun r => r.status == "pending" && (country == "" || r.country == country))).take
    limit).map (fun r => r.url))

/-- One `UPDATE urls SET status = s WHERE url = u` call. -/
def setUrlStatus (url status : String) (store : List UrlRow) : List UrlRow :=
  store.map (fun r => if r.url == url then { r with status := status } else r)

/-- Second phase of `get_pending_urls`: one separate UPDATE call per selected
URL flipping it to `processing`. -/
def markProcessing (urls : List String) (store : List UrlRow) : List UrlRow :=
  urls.foldl (fun st u => setUrlStatus u "processing" st) store

/-- `get_pending_urls` (queries.py) executed with no interference: the SELECT
followed by the per-URL UPDATEs. The two phases are separate requests to the
durable store — no transaction or row lock spans them. -/
def get_pending_urls (limit : Nat) (country : String) (store : List UrlRow) :
    List String × List UrlRow :=
  let urls := selectPendingUrls limit country store
  (urls, markProcessing urls store)

/-- One legal interleaving of two concurrent `get_pending_urls` calls: both
SELECTs execute before either caller's UPDATEs. This interleaving is possible
precisely because the SELECT and the UPDATEs are separate store requests.
Returns (caller 1's URLs, caller 2's URLs, final store). -/
def twoCallerClaim (limit1 limit2 : Nat) (country : String) (store : List UrlRow) :
    List String × List String × List UrlRow :=
  let r1 := selectPendingUrls limit1 country store
  let r2 := selectPendingUrls limit2 country store
  let st1 := markProcessing r1 store
  let st2 := markProcessing r2 st1
  (r1, r2, st2)

/-- `mark_url_done` (queries.py): terminal status — non-empty `error` means
`failed`, empty means `completed`; also records counters and timestamp. -/
def mark_url_done (url : String) (emailsFound : Nat) (error : String) (now : Nat)
    (store : List UrlRow) : List UrlRow :=
  let status := if error ≠ "" then "failed" else "completed"
  store.map (fun r =>
    if r.url == url then
      { r with status := status, emailsFound := emailsFound, error := error,
               processedAt := some now }
    else r)

/-- `is_url_seen` (queries.py): the URL has a row in the store. -/
def is_url_seen (url : String) (store : List UrlRow) : Bool :=
  (findUrlRow url store).isSome

/-- `is_url_completed` (queries.py): the URL's row is in a terminal status
(`completed` or `failed`). -/
def is_url_completed (url : String) (store : List UrlRow) : Bool :=
  match findUrlRow url store with
  | none => false
  | some r => r.status == "completed" || r.status == "failed"

/-! ## Startup recovery (queries.py reset_stuck_urls / reset_orphaned_jobs,
orchestrator.py run_forever / _recover_stuck_urls) -/

/-- Net effect of `Orchestrator._recover_stuck_urls` (and of
`reset_stuck_urls`): every row in `processing` is reset to `pending`. The
source loops over batches of 200 `processing` rows until none remain; the
loop's net effect on the table is this map. -/
def recoverStuckUrls (urls : List UrlRow) : List UrlRow :=
  urls.map (fun r => if r.status == "processing" then { r with status := "pending" } else r)

/-- `reset_orphaned_jobs` (queries.py): every `running` job is marked
`failed` with error "orphaned by restart". Returns the new table and the
number of jobs reset. This function has no caller anywhere in the source. -/
def reset_orphaned_jobs (jobs : List JobRow) : List JobRow × Nat :=
  (jobs.map (fun j =>
      if j.status == "running" then { j with status := "failed", error := "orphaned by restart" }
      else j),
   (jobs.filter (fun j => j.status == "running")).length)

/-- The startup recovery `Orchestrator.run_forever` actually performs before
entering the main loop (orchestrator.py line 69): only
`_recover_stuck_urls` is invoked — `reset_orphaned_jobs` is never called,
so the jobs table is left untouched. -/
def orchestratorStartupRecovery (db : Db) : Db :=
  { db with urls := recoverStuckUrls db.urls }

/-! ## Query ledger (queries.py search_queries table,
search_discovery.py discover_urls_db) -/

/-- `mark_query_done` (queries.py): upsert with `on_conflict="query"` — if a
row with the same query text exists it is replaced, otherwise a row is
appended. The `executed_at` refresh on upsert is performed by the datastore
(modelled from the spec: "upserts on the unique query text, refreshing
`executed_at`"); `now` is the upsert time. -/
def mark_query_done (q : String) (resultsCount urlsFound : Nat) (jobId : Option Nat)
    (now : Nat) (ledger : List QueryRow) : List QueryRow :=
  let row : QueryRow :=
    { query := q, executedAt := now, resultsCount := resultsCount,
      urlsFound := urlsFound, jobId := jobId }
  if ledger.any (fun r => r.query == q) then
    ledger.map (fun r => if r.query == q then row else r)
  else
    ledger ++ [row]

/-- Modelled from the spec: `db.get_recent_queries(ttl)` is called by
`SearchDiscovery.discover_urls_db` but is absent from
src/app/db/queries.py. Per the spec ("a query is considered fresh if
`executed_at` is within a configurable re-run window (TTL); queries older
than the TTL are eligible to run again"), it returns the set of query texts
whose `executed_at` is within the TTL window at load time `now`: a query
executed at time T is fresh iff `now < T + ttl`. -/
def get_recent_queries (ttl now : Nat) (ledger : List QueryRow) : List String :=
  (ledger.filter (fun r => now < r.executedAt + ttl)).map (fun r => r.query)

/-- `discover_urls_db`'s skip test: a generated query is skipped iff it is in
the bulk-loaded recent set (`if query in recent_queries: continue`). -/
def discoverySkips (ttl now : Nat) (ledger : List QueryRow) (q : String) : Bool :=
  (get_recent_queries ttl now ledger).contains q

/-- One row per query text (the `search_queries` unique-key invariant). -/
def uniqueQueryKeys (ledger : List QueryRow) : Prop :=
  ledger.Pairwise (fun a b => a.query ≠ b.query)

/-! ## Rate limiter (app/utils/rate_limiter.py)

The monotonic clock is modelled in integer ticks (ℤ, e.g. milliseconds);
the gap property proved below is purely order-theoretic and does not depend
on the tick size. `wait` is given the clock value `t` observed while the
caller holds the per-domain lock; sleeping is idealized as exact, so when
less than `delay` has elapsed since the last recorded request the recorded
wake-up time is `last + delay`. -/

/-- The env-driven rate limits (config.py): default, search-engine and
directory-site minimum inter-request intervals, in clock ticks. -/
structure RateConfig where
  defaultRateLimit : ℤ
  searchRateLimit : ℤ
  directoryRateLimit : ℤ

/-- `RateLimiter.CUSTOM_LIMITS`: per-domain overrides for sensitive hosts. -/
def CUSTOM_LIMITS (cfg : RateConfig) : List (String × ℤ) :=
  [("duckduckgo.com", cfg.searchRateLimit),
   ("google.com", cfg.searchRateLimit),
   ("www.google.com", cfg.searchRateLimit),
   ("www.yellowpages.com", cfg.directoryRateLimit),
   ("www.yelp.com", cfg.directoryRateLimit),
   ("www.manta.com", cfg.directoryRateLimit)]

/-- Python `s.lower()` on strings, modelled characterwise. -/
def strToLower (s : String) : String := ⟨s.data.map Char.toLower⟩

/-- `RateLimiter._get_domain`: lowercased netloc. -/
def getDomain (u : Url) : String := strToLower u.netloc

/-- `RateLimiter._get_delay`: the per-domain override, or the default. -/
def getDelay (cfg : RateConfig) (domain : String) : ℤ :=
  match (CUSTOM_LIMITS cfg).find? (fun e => e.1 == domain) with
  | some e => e.2
  | none => cfg.defaultRateLimit

/-- The limiter's `_last_request` dict: domain → last recorded request time.
A cons-on-update association list; lookup finds the most recent entry. -/
abbrev RateState := List (String × ℤ)

/-- `self._last_request.get(domain, 0)`. -/
def rateLookup (st : RateState) (domain : String) : ℤ :=
  match st.find? (fun e => e.1 == domain) with
  | some e => e.2
  | none => 0

/-- `RateLimiter.wait` under the domain lock: if less than `delay` has
elapsed since the last recorded request, sleep the remainder; then record
the new last-request time. Returns (recorded time, new state). -/
def RateLimiter.wait (cfg : RateConfig) (st : RateState) (u : Url) (t : ℤ) :
    ℤ × RateState :=
  let domain := getDomain u
  let delay := getDelay cfg domain
  let last := rateLookup st domain
  let r := if t - last < delay then last + delay else t
  (r, (domain, r) :: st)

/-- A serialized sequence of `wait` calls on one domain: the per-domain lock
orders them, and the monotonic clock means call i+1 reads a time no earlier
than call i's recorded time; each list entry `g` is the clock offset of the
next call's read relative to the previous recorded time. Returns the
recorded request times in order. -/
def runWaits (cfg : RateConfig) (u : Url) (st : RateState) : List ℤ → List ℤ
  | [] => []
  | g :: gs =>
    let t := rateLookup st (getDomain u) + g
    let w := RateLimiter.wait cfg st u t
    w.1 :: runWaits cfg u w.2 gs

/-! ## Robots gate (app/utils/robots_checker.py) -/

/-- Model of a parsed robots.txt restricted to what the code consults
(urllib's `RobotFileParser` for the fixed bot user agent, an external
library): the path roots disallowed for our user agent. -/
structure RobotsRules where
  disallowPaths : List String
deriving DecidableEq

/-- `RobotFileParser.can_fetch(BOT_USER_AGENT, url)` under the model: the
URL's path is under none of the disallowed roots. -/
def canFetch (rules : RobotsRules) (u : Url) : Bool :=
  rules.disallowPaths.all (fun p => !(p.data.isPrefixOf u.path.data))

/-- Outcome of the network GET for a domain's robots.txt: an HTTP response
(with the rules its body parses to, used only when the status is 200), or a
raised exception. -/
inductive RobotsFetchOutcome
  | resp (status : Nat) (rules : RobotsRules)
  | exc (msg : String)
deriving DecidableEq

/-- The checker's `_parsers` cache: domain → cached parser, where a cached
`none` records a failed or non-200 fetch. The cache is only ever added to —
there is no TTL eviction. -/
abbrev RobotsCache := List (String × Option RobotsRules)

/-- `domain in self._parsers` / `self._parsers[domain]`. -/
def cacheLookup (cache : RobotsCache) (domain : String) : Option (Option RobotsRules) :=
  (cache.find? (fun e => e.1 == domain)).map (fun e => e.2)

/-- `RobotsChecker._fetch_robots`: return the cached parser when present;
otherwise fetch robots.txt for the URL's domain — a 200 response is parsed
and cached, any other status or an exception caches `none`. Returns
(parser, new cache, whether a network fetch was performed). -/
def fetchRobots (world : String → RobotsFetchOutcome) (cache : RobotsCache) (u : Url) :
    Option RobotsRules × RobotsCache × Bool :=
  let domain := u.netloc
  match cacheLookup cache domain with
  | some cached => (cached, cache, false)
  | none =>
    match world domain with
    | .resp s rules =>
      if s = 200 then (some rules, (domain, some rules) :: cache, true)
      else (none, (domain, none) :: cache, true)
    | .exc _ => (none, (domain, none) :: cache, true)

/-- `RobotsChecker.is_allowed`: a missing parser (no robots file, failed
fetch, or non-200) allows everything; otherwise defer to `can_fetch`.
Returns (allowed, new cache, whether a network fetch was performed). -/
def is_allowed (world : String → RobotsFetchOutcome) (cache : RobotsCache) (u : Url) :
    Bool × RobotsCache × Bool :=
  let f := fetchRobots world cache u
  ((match f.1 with
    | none => true
    | some rules => canFetch rules u),
   f.2.1, f.2.2)

/-- The robots fetch for a domain does not produce a 200 response: either a
non-200 status or a raised exception. -/
def robotsFetchFails (o : RobotsFetchOutcome) : Prop :=
  match o with
  | .resp s _ => s ≠ 200
  | .exc _ => True

/-! ## Page fetcher (app/scraper/page_fetcher.py) -/

/-- Python `needle in hay` substring membership, over character lists. -/
def listHasSub (needle : List Char) : List Char → Bool
  | [] => needle.isEmpty
  | c :: rest => needle.isPrefixOf (c :: rest) || listHasSub needle rest

/-- Python `needle in hay` on strings. -/
def strContainsSub (hay needle : String) : Bool :=
  listHasSub needle.data hay.data

/-- `page_fetcher.py JS_MARKERS`: markers of a JavaScript-rendered shell. -/
def JS_MARKERS : List String :=
  ["window.__NEXT_DATA__",
   "window.__NUXT__",
   "<div id=\"app\"></div>",
   "<div id=\"root\"></div>",
   "React.createElement",
   "ng-app",
   "__GATSBY",
   "Loading...</"]

/-- `PageFetcher._needs_js_rendering`: near-empty body, or a known SPA marker
with implausibly short extracted text. The BeautifulSoup text extraction is
an external library and is supplied as `soupText`; which marker matched does
not affect the outcome, so the source's first-match loop reduces to `any`. -/
def needsJsRendering (soupText : String → String) (html : String) : Bool :=
  if html.trim.length < 500 then true
  else if JS_MARKERS.any (fun m => strContainsSub html m) then
    (soupText html).length < 200
  else false

/-- Outcome of one Playwright navigation: the rendered HTML, or a raised
exception (timeout, browser failure, ...). -/
inductive PwOutcome
  | ok (html : String)
  | exc (msg : String)
deriving DecidableEq

/-- `PageFetcher._fetch_playwright`: a successful navigation yields the
rendered content with status 200; an exception yields a failure result. -/
def fetchPlaywright (url : String) (o : PwOutcome) : FetchResult :=
  match o with
  | .ok html => ⟨url, html, 200, true, true, none⟩
  | .exc msg => ⟨url, "", 0, true, false, some msg⟩

/-- Externally observable actions of one `PageFetcher.fetch` call (beyond the
robots.txt lookup): a rate-limiter wait, one httpx network attempt to the
target URL, or a Playwright navigation to the target URL. -/
inductive FetchEv
  | rlWait
  | httpxAttempt
  | pwNav
deriving DecidableEq

/-- The external world one `PageFetcher.fetch` call interacts with: robots
fetch outcomes per domain, the httpx outcome script, the BeautifulSoup text
extraction, and the Playwright outcome. -/
structure FetchWorld where
  robots : String → RobotsFetchOutcome
  httpxScript : List HttpAttempt
  soupText : String → String
  pw : PwOutcome

/-- `PageFetcher.fetch`: robots gate first (fail fast on disallow, no further
action); then a rate-limiter wait unless a rotating proxy is configured;
then the httpx attempt; on success without JS markers return it, otherwise
fall back to Playwright (with its own rate-limiter wait) and return the
Playwright result if it succeeded, else the original httpx result.
Returns (result, robots cache after the call, event trace). -/
def PageFetcher.fetch (w : FetchWorld) (proxyEnabled : Bool) (cache : RobotsCache)
    (u : Url) : FetchResult × RobotsCache × List FetchEv :=
  let a := is_allowed w.robots cache u
  if !a.1 then
    (⟨u.toStr, "", 0, false, false, some "Blocked by robots.txt"⟩, a.2.1, [])
  else
    let evWait : List FetchEv := if !proxyEnabled then [.rlWait] else []
    let o := fetchHttpx u.toStr 0 w.httpxScript
    let evHttpx := List.replicate o.attempts FetchEv.httpxAttempt
    let needsJs := if o.result.success then needsJsRendering w.soupText o.result.html else false
    if o.result.success && !needsJs then
      (o.result, a.2.1, evWait ++ evHttpx)
    else
      let evWait2 : List FetchEv := if !proxyEnabled then [.rlWait] else []
      let pwResult := fetchPlaywright u.toStr w.pw
      if pwResult.success then
        (pwResult, a.2.1, evWait ++ evHttpx ++ evWait2 ++ [.pwNav])
      else
        (o.result, a.2.1, evWait ++ evHttpx ++ evWait2 ++ [.pwNav])

/-! ## URL processor (app/worker/url_processor.py, contacts writes from
app/db/queries.py) -/

/-- `ContactExtractor`'s result (external collaborator, spec §6.1). -/
structure ContactInfo where
  farmName : String
  ownerName : String
  emails : List String
  phones : List String
  address : String
  city : String
  state : String
  zipCode : String
  website : String
  facebook : String
  instagram : String
  sourceUrl : String
deriving DecidableEq

/-- `MetadataExtractor`'s result (external collaborator). -/
structure Metadata where
  cattleType : String
  breed : String
  headCount : String
deriving DecidableEq

/-- `upsert_contact` (queries.py): normalize the email; an empty email is
skipped; otherwise upsert on the email key. Returns the new contacts table
and the boolean the source returns (true whenever the upsert ran). -/
def upsert_contact (rec : ContactRecord) (contacts : List ContactRecord) :
    List ContactRecord × Bool :=
  let email := strToLower rec.email.trim
  if email = "" then (contacts, false)
  else
    let data := { rec with email := email }
    if contacts.any (fun c => c.email == email) then
      (contacts.map (fun c => if c.email == email then data else c), true)
    else (contacts ++ [data], true)

/-- `URLProcessor._already_has_contact`: a contact row with this exact
`source_url` already exists (captured inline by a directory or association
crawler). -/
def already_has_contact (url : String) (contacts : List ContactRecord) : Bool :=
  contacts.any (fun c => c.sourceUrl == url)

/-- `URLProcessor._validate_state`: clear an extracted state that does not
belong to the country. `cfgRegions` is the `COUNTRY_CONFIG` regions table
(config.py). -/
def validate_state (cfgRegions : String → List String) (state country : String) : String :=
  if state = "" then ""
  else
    let regions := cfgRegions country
    if regions = [] then state
    else
      let stateLower := (strToLower state).trim
      match regions.find? (fun r => stateLower == strToLower r) with
      | some r => r
      | none =>
        if country ≠ "US" then
          if state.length = 2 && state.data.all Char.isAlpha then ""
          else if ((cfgRegions "US").map (fun r => strToLower r)).contains stateLower then ""
          else state
        else state

/-- `URLProcessor._contact_to_records`: one flat contacts row per email. -/
def contact_to_records (cfgRegions : String → List String) (contact : ContactInfo)
    (meta : Metadata) (country : String) : List ContactRecord :=
  let validatedState := validate_state cfgRegions contact.state country
  contact.emails.map (fun email =>
    { email := email, farmName := contact.farmName, ownerName := contact.ownerName,
      phone := contact.phones.headD "", address := contact.address, city := contact.city,
      state := validatedState, zipCode := contact.zipCode, country := country,
      website := contact.website, facebook := contact.facebook,
      instagram := contact.instagram, cattleType := meta.cattleType, breed := meta.breed,
      headCount := meta.headCount, sourceUrl := contact.sourceUrl })

/-- The contact-page merge inside `URLProcessor.process`: append unseen
emails from the contact page, and fill in blank phone/address/state/zip/city
fields. -/
def mergeContacts (contact contact2 : ContactInfo) : ContactInfo :=
  { contact with
    emails := contact2.emails.foldl
      (fun acc e => if acc.contains e then acc else acc ++ [e]) contact.emails
    phones := if contact.phones.isEmpty && !contact2.phones.isEmpty then contact2.phones
              else contact.phones
    address := if contact.address == "" && contact2.address != "" then contact2.address
               else contact.address
    state := if contact.state == "" && contact2.state != "" then contact2.state
             else contact.state
    zipCode := if contact.zipCode == "" && contact2.zipCode != "" then contact2.zipCode
               else contact.zipCode
    city := if contact.city == "" && contact2.city != "" then contact2.city
            else contact.city }

/-- The collaborators one `URLProcessor.process` call uses: the page fetcher
(modelled separately as `PageFetcher.fetch`; abstracted here to a result per
URL), the HTML extractors (external collaborators, spec §6.1), the
contact-link finder (`_find_contact_page_link`, a BeautifulSoup parse), the
configured regions table, and the wall-clock time for `processed_at`. -/
structure ProcessEnv where
  fetch : String → FetchResult
  extract : String → String → ContactInfo
  findContactLink : String → String → Option String
  extractMeta : String → Metadata
  cfgRegions : String → List String
  now : Nat

/-- `URLProcessor.process`: skip terminal URLs; short-circuit URLs whose
contact was captured inline; otherwise fetch, extract, optionally follow a
same-domain contact link, upsert one record per email and mark the URL
done. Returns (contacts saved, new store, whether any page fetch was
performed). -/
def URLProcessor.process (env : ProcessEnv) (url country : String) (db : Db) :
    Nat × Db × Bool :=
  if is_url_completed url db.urls then (0, db, false)
  else if already_has_contact url db.contacts then
    (0, { db with urls := mark_url_done url 1 "" env.now db.urls }, false)
  else
    let result := env.fetch url
    if !result.success then
      let err := match result.error with
        | some e => if e = "" then "fetch failed" else e
        | none => "fetch failed"
      (0, { db with urls := mark_url_done url 0 err env.now db.urls }, true)
    else
      let contact0 := env.extract result.html url
      let contact :=
        if contact0.emails.isEmpty then
          match env.findContactLink result.html url with
          | some contactUrl =>
            if !(is_url_seen contactUrl db.urls) then
              let cres := env.fetch contactUrl
              if cres.success then mergeContacts contact0 (env.extract cres.html contactUrl)
              else contact0
            else contact0
          | none => contact0
        else contact0
      if contact.emails.isEmpty then
        (0, { db with urls := mark_url_done url 0 "" env.now db.urls }, true)
      else
        let meta := env.extractMeta result.html
        let records := contact_to_records env.cfgRegions contact meta country
        let upserted := records.foldl
          (fun acc rec =>
            let u := upsert_contact rec acc.1
            (u.1, acc.2 + if u.2 then 1 else 0))
          (db.contacts, 0)
        (upserted.2,
         { db with contacts := upserted.1,
                   urls := mark_url_done url contact.emails.length "" env.now db.urls },
         true)

/-- One row per URL (the `urls` unique-key invariant). -/
def urlKeysUnique (store : List UrlRow) : Prop :=
  store.Pairwise (fun a b => a.url ≠ b.url)

/-! ## Concrete inputs used by the closed theorems -/

/-- A Frontier with K = 1 pending URL. -/
def onePendingStore : List UrlRow :=
  [pendingRow "http://a.example/" "search" "" "" "US"]

/-- A store as left by an unclean shutdown: one URL stuck in `processing`
and one job left `running`, with no job started by the current process. -/
def crashedDb : Db :=
  { urls := [{ url := "http://a.example/", status := "processing", source := "search",
               stateTarget := "", discoveredBy := "", country := "US", emailsFound := 0,
               error := "", processedAt := none }],
    jobs := [{ id := 1, jobType := "full", states := ["Texas"], status := "running",
               error := "", totalQueries := 5 }],
    queries := [], contacts := [] }

/-- A store whose only URL row previously failed. -/
def failedUrlDb : Db :=
  { urls := [{ url := "http://f.example/", status := "failed", source := "search",
               stateTarget := "", discoveredBy := "", country := "US", emailsFound := 0,
               error := "timeout", processedAt := some 5 }],
    jobs := [], queries := [], contacts := [] }

/-- A trivial `ProcessEnv` whose collaborators are never consulted on the
terminal-status path. -/
def stubEnv : ProcessEnv :=
  { fetch := fun s => ⟨s, "", 0, false, false, some "unreached"⟩,
    extract := fun _ _ => ⟨"", "", [], [], "", "", "", "", "", "", "", ""⟩,
    findContactLink := fun _ _ => none,
    extractMeta := fun _ => ⟨"", "", ""⟩,
    cfgRegions := fun _ => [],
    now := 9 }

/-! # Theorems -/

/-- C1: the claim fails on the code. `get_pending_urls` issues the SELECT of
pending rows and the per-URL UPDATEs to `processing` as separate store
requests (queries.py lines 352-378), so the interleaving in which both
concurrent callers run their SELECT before either runs its UPDATEs is
possible. Against a Frontier with K = 1 pending URL and two callers each
requesting up to 1, both callers receive the same URL: the union of the
returned sets has a duplicate and the sum of the returned counts is 2 > K.
This evaluates the code at that failing input. -/
theorem c1_claim_not_atomic :
    (twoCallerClaim 1 1 "" onePendingStore).1 = ["http://a.example/"] ∧
    (twoCallerClaim 1 1 "" onePendingStore).2.1 = ["http://a.example/"] ∧
    (twoCallerClaim 1 1 "" onePendingStore).1.length +
        (twoCallerClaim 1 1 "" onePendingStore).2.1.length = 2 ∧
    (onePendingStore.filter (fun r => r.status == "pending")).length = 1 := by
  decide

/-- C2: the claim fails on the code. The startup recovery performed by
`Orchestrator.run_forever` (orchestrator.py line 69) only resets stuck
URLs; `reset_orphaned_jobs` — whose own docstring says it runs "on
startup" — has no caller anywhere in the source. Against a store holding
one `processing` URL and one orphaned `running` job started by no current
process, recovery resets the URL but leaves the job `running`; the unused
`reset_orphaned_jobs` would have resolved it. -/
theorem c2_orphaned_jobs_unresolved :
    ((orchestratorStartupRecovery crashedDb).urls.filter
        (fun r => r.status == "processing")).length = 0 ∧
    ((orchestratorStartupRecovery crashedDb).urls.filter
        (fun r => r.status == "pending")).length = 1 ∧
    ((orchestratorStartupRecovery crashedDb).jobs.filter
        (fun j => j.status == "running")).length = 1 ∧
    ((reset_orphaned_jobs crashedDb.jobs).1.filter
        (fun j => j.status == "running")).length = 0 := by
  decide

/-- C4 (counterexample): the claim that non-200 responses such as 5xx are
"retried the same number of times with the same backoff" as 429s is false.
With retry budget MAX_RETRIES = 3, an exception (timeout) script is retried
to 4 total attempts, while a 500-response script gives up after a single
attempt — a success available on the second attempt is never reached. -/
theorem c4_5xx_not_retried :
    MAX_RETRIES = 3 ∧
    (fetchHttpx "u" 0 [.exc "timeout", .exc "timeout", .exc "timeout",
        .exc "timeout"]).attempts = 4 ∧
    (fetchHttpx "u" 0 [.resp 500 "", .resp 500 "", .resp 500 "",
        .resp 500 ""]).attempts = 1 ∧
    (fetchHttpx "u" 0 [.resp 500 "", .resp 200 "ok"]).result.success = false ∧
    (fetchHttpx "u" 0 [.exc "timeout", .resp 200 "ok"]).result.success = true := by
  decide

/-- C4 (amended): in `_fetch_httpx`, a 200 response succeeds immediately; a
non-200, non-429 response (e.g. 5xx) fails immediately with no retry; a 429
is retried with exponential backoff `RETRY_BACKOFF ^ (retries+1)` while the
budget `MAX_RETRIES` is not exhausted and otherwise fails; a raised
exception (timeout, connection error) is retried with the same backoff
under the same budget and otherwise fails. -/
theorem c4_retry_behavior (url body msg : String) (retries s : Nat)
    (rest : List HttpAttempt) :
    (fetchHttpx url retries (.resp 200 body :: rest) =
        ⟨⟨url, body, 200, false, true, none⟩, 1, []⟩) ∧
    (s ≠ 200 → s ≠ 429 → fetchHttpx url retries (.resp s body :: rest) =
        ⟨⟨url, body, s, false, false, some ("HTTP " ++ toString s)⟩, 1, []⟩) ∧
    (retries < MAX_RETRIES → fetchHttpx url retries (.resp 429 body :: rest) =
        ⟨(fetchHttpx url (retries + 1) rest).result,
         (fetchHttpx url (retries + 1) rest).attempts + 1,
         RETRY_BACKOFF ^ (retries + 1) :: (fetchHttpx url (retries + 1) rest).waits⟩) ∧
    (MAX_RETRIES ≤ retries → fetchHttpx url retries (.resp 429 body :: rest) =
        ⟨⟨url, body, 429, false, false, some "HTTP 429"⟩, 1, []⟩) ∧
    (retries < MAX_RETRIES → fetchHttpx url retries (.exc msg :: rest) =
        ⟨(fetchHttpx url (retries + 1) rest).result,
         (fetchHttpx url (retries + 1) rest).attempts + 1,
         RETRY_BACKOFF ^ (retries + 1) :: (fetchHttpx url (retries + 1) rest).waits⟩) ∧
    (MAX_RETRIES ≤ retries → fetchHttpx url retries (.exc msg :: rest) =
        ⟨⟨url, "", 0, false, false, some msg⟩, 1, []⟩) := by
  refine ⟨?_, ?_, ?_, ?_, ?_, ?_⟩
  · simp [fetchHttpx]
  · intro h200 h429
    rw [fetchHttpx, if_neg h200, if_neg (by simp [h429])]
  · intro hlt
    rw [fetchHttpx, if_neg (by decide), if_pos ⟨rfl, hlt⟩]
  · intro hge
    rw [fetchHttpx, if_neg (by decide), if_neg (by omega)]
    rfl
  · intro hlt
    rw [fetchHttpx, if_pos hlt]
  · intro hge
    rw [fetchHttpx, if_neg (by omega)]

/-- C4 (witness): the amended behavior evaluated at a concrete input — a 500
response at retries 0 fails in a single attempt. -/
theorem c4_retry_behavior_witness :
    fetchHttpx "u" 0 [.resp 500 "b"] =
      ⟨⟨"u", "b", 500, false, false, some "HTTP 500"⟩, 1, []⟩ :=
  (c4_retry_behavior "u" "b" "m" 0 500 []).2.1 (by decide) (by decide)

/-- C5: when `RobotsGate.isAllowed` returns false for a URL,
`PageFetcher.fetch` fails fast: the result is unsuccessful with the
robots.txt error, and the event trace is empty — no rate-limiter wait, no
network attempt to the target URL, no retry and no Playwright fallback. -/
theorem c5_robots_blocked_fail_fast (w : FetchWorld) (proxyEnabled : Bool)
    (cache : RobotsCache) (u : Url)
    (hblocked : (is_allowed w.robots cache u).1 = false) :
    PageFetcher.fetch w proxyEnabled cache u =
      (⟨u.toStr, "", 0, false, false, some "Blocked by robots.txt"⟩,
       (is_allowed w.robots cache u).2.1, []) := by
  unfold PageFetcher.fetch
  dsimp only
  rw [hblocked]
  rfl

/-- C5 (witness): a domain whose cached robots rules disallow everything. -/
theorem c5_robots_blocked_fail_fast_witness :
    PageFetcher.fetch
        ⟨fun _ => .exc "unreached", [], fun _ => "", .exc "unreached"⟩ false
        [("x.example", some ⟨["/"]⟩)] ⟨"http", "x.example", "/page"⟩ =
      (⟨"http://x.example/page", "", 0, false, false, some "Blocked by robots.txt"⟩,
       [("x.example", some ⟨["/"]⟩)], []) :=
  c5_robots_blocked_fail_fast
    ⟨fun _ => .exc "unreached", [], fun _ => "", .exc "unreached"⟩ false
    [("x.example", some ⟨["/"]⟩)] ⟨"http", "x.example", "/page"⟩ (by decide)

/-- C6: when a domain's robots.txt fetch fails (non-200 response or raised
exception) and the domain is not yet cached, `is_allowed` returns true, a
single network fetch happens, the failure is cached as a `none` parser, and
a subsequent call for the same domain is allowed again with no further
fetch — the cache entry persists for the process lifetime. -/
theorem c6_robots_fail_open_cached (world : String → RobotsFetchOutcome)
    (cache : RobotsCache) (u : Url)
    (hmiss : cacheLookup cache u.netloc = none)
    (hfail : robotsFetchFails (world u.netloc)) :
    (is_allowed world cache u).1 = true ∧
    (is_allowed world cache u).2.2 = true ∧
    cacheLookup (is_allowed world cache u).2.1 u.netloc = some none ∧
    (∀ u' : Url, u'.netloc = u.netloc →
        is_allowed world (is_allowed world cache u).2.1 u' =
          (true, (is_allowed world cache u).2.1, false)) := by
  have hfr : fetchRobots world cache u = (none, (u.netloc, none) :: cache, true) := by
    unfold fetchRobots
    dsimp only
    rw [hmiss]
    cases hw : world u.netloc with
    | resp s rules =>
      rw [hw] at hfail
      simp only [robotsFetchFails] at hfail
      simp [hfail]
    | exc msg => rfl
  have hia : is_allowed world cache u = (true, (u.netloc, none) :: cache, true) := by
    unfold is_allowed
    rw [hfr]
  refine ⟨by rw [hia], by rw [hia], ?_, ?_⟩
  · rw [hia]
    simp [cacheLookup]
  · intro u' hu'
    rw [hia]
    unfold is_allowed fetchRobots
    rw [hu']
    simp [cacheLookup]

/-- C6 (witness): a 404 robots.txt on an uncached domain. -/
theorem c6_robots_fail_open_cached_witness :
    (is_allowed (fun _ => .resp 404 ⟨[]⟩) [] ⟨"http", "y.example", "/"⟩).1 = true ∧
    (is_allowed (fun _ => .resp 404 ⟨[]⟩) [] ⟨"http", "y.example", "/"⟩).2.2 = true ∧
    cacheLookup (is_allowed (fun _ => .resp 404 ⟨[]⟩) [] ⟨"http", "y.example", "/"⟩).2.1
        "y.example" = some none ∧
    is_allowed (fun _ => .resp 404 ⟨[]⟩)
        (is_allowed (fun _ => .resp 404 ⟨[]⟩) [] ⟨"http", "y.example", "/"⟩).2.1
        ⟨"https", "y.example", "/other"⟩ =
      (true, (is_allowed (fun _ => .resp 404 ⟨[]⟩) [] ⟨"http", "y.example", "/"⟩).2.1,
       false) := by
  have h := c6_robots_fail_open_cached (fun _ => .resp 404 ⟨[]⟩) []
    ⟨"http", "y.example", "/"⟩ (by decide) (show (404 : Nat) ≠ 200 by decide)
  exact ⟨h.1, h.2.1, h.2.2.1, h.2.2.2 ⟨"https", "y.example", "/other"⟩ rfl⟩

/-- C9: a URL whose stored row is terminal (`completed` or `failed`) is
skipped by `URLProcessor.process`: it returns 0, leaves the whole store
(URL rows and contacts) unchanged, and performs no page fetch — in
particular a previously failed URL is never retried. -/
theorem c9_terminal_url_skipped (env : ProcessEnv) (url country : String) (db : Db)
    (r : UrlRow) (hfind : findUrlRow url db.urls = some r)
    (hterm : r.status = "completed" ∨ r.status = "failed") :
    URLProcessor.process env url country db = (0, db, false) := by
  have hc : is_url_completed url db.urls = true := by
    unfold is_url_completed
    rw [hfind]
    rcases hterm with h | h <;> simp [h]
  unfold URLProcessor.process
  rw [hc]
  rfl

/-- C9 (witness): a store whose only URL previously failed. -/
theorem c9_terminal_url_skipped_witness :
    URLProcessor.process stubEnv "http://f.example/" "US" failedUrlDb =
      (0, failedUrlDb, false) :=
  c9_terminal_url_skipped stubEnv "http://f.example/" "US" failedUrlDb
    { url := "http://f.example/", status := "failed", source := "search",
      stateTarget := "", discoveredBy := "", country := "US", emailsFound := 0,
      error := "timeout", processedAt := some 5 }
    (by decide) (Or.inr rfl)

/-- Helper for C10: `split(":", 1)` after the colon-free stored prefix. -/
theorem splitOnceColon_append (pre post : List Char) (h : ':' ∉ pre) :
    splitOnceColon (pre ++ ':' :: post) = (pre, post) := by
  induction pre with
  | nil => simp [splitOnceColon]
  | cons c cs ih =>
    rw [List.mem_cons, not_or] at h
    obtain ⟨h1, h2⟩ := h
    simp only [List.cons_append, splitOnceColon, List.append_eq]
    rw [if_neg (Ne.symm h1), ih h2]

/-- C10: the job country encoding round-trips — for every `job_type` with no
colon and every country code, storing via `create_job`'s encoding
(`'job_type:country'` for non-US, bare `job_type` for US) and decoding via
`JobManager._decode_country` recovers exactly the original pair. -/
theorem c10_job_country_roundtrip (jobType country : String)
    (h : ':' ∉ jobType.data) :
    decode_country (encodeJobType jobType country) = (jobType, country) := by
  have hnc : jobType.data.contains ':' = false := by
    simp [h]
  by_cases hc : country = "US"
  · subst hc
    have he : encodeJobType jobType "US" = jobType := by
      unfold encodeJobType
      rw [if_neg (by simp)]
    rw [he]
    unfold decode_country
    rw [hnc]
    simp
  · unfold encodeJobType decode_country
    rw [if_pos hc]
    have hdata : (jobType ++ ":" ++ country).data = jobType.data ++ ':' :: country.data := by
      rw [String.data_append, String.data_append, List.append_assoc]
      rfl
    rw [hdata]
    have hmem : (jobType.data ++ ':' :: country.data).contains ':' = true := by
      simp
    rw [hmem, if_pos rfl]
    rw [splitOnceColon_append jobType.data country.data h]

/-- C10 (witness): a non-US job round-trips. -/
theorem c10_job_country_roundtrip_witness :
    decode_country (encodeJobType "full" "NZ") = ("full", "NZ") :=
  c10_job_country_roundtrip "full" "NZ" (by decide)

/-- Helper for C7: a recorded request time is at least the previously
recorded time plus the domain's minimum interval, for every clock reading. -/
theorem wait_record_ge (cfg : RateConfig) (st : RateState) (u : Url) (t : ℤ) :
    rateLookup st (getDomain u) + getDelay cfg (getDomain u) ≤
      (RateLimiter.wait cfg st u t).1 := by
  unfold RateLimiter.wait
  dsimp only
  split <;> omega

/-- Helper for C7: `wait` records its returned time as the domain's new
last-request time. -/
theorem wait_record_state (cfg : RateConfig) (st : RateState) (u : Url) (t : ℤ) :
    rateLookup (RateLimiter.wait cfg st u t).2 (getDomain u) =
      (RateLimiter.wait cfg st u t).1 := by
  unfold RateLimiter.wait rateLookup
  simp

/-- Helper for C7: the first recorded time of a serialized run is at least
the starting last-request time plus the domain's interval. -/
theorem runWaits_head_ge (cfg : RateConfig) (u : Url) (st : RateState) (g : ℤ)
    (gs : List ℤ) (b : ℤ)
    (hb : (runWaits cfg u st (g :: gs)).head? = some b) :
    rateLookup st (getDomain u) + getDelay cfg (getDomain u) ≤ b := by
  rw [runWaits] at hb
  dsimp only [List.head?] at hb
  have hb' := Option.some.inj hb
  rw [← hb']
  exact wait_record_ge cfg st u _

/-- Helper for C7: every serialized run of `wait` calls on one domain has
consecutive recorded times separated by at least the domain's interval. -/
theorem runWaits_chain (cfg : RateConfig) (u : Url) (st : RateState) (gs : List ℤ) :
    List.Chain' (fun a b => a + getDelay cfg (getDomain u) ≤ b) (runWaits cfg u st gs) := by
  induction gs generalizing st with
  | nil => simp [runWaits]
  | cons g gs ih =>
    rw [runWaits]
    rw [List.chain'_cons']
    refine ⟨?_, ih _⟩
    intro b hb
    cases gs with
    | nil => simp [runWaits] at hb
    | cons g' gs' =>
      have h2 := runWaits_head_ge cfg u _ g' gs' b hb
      rw [wait_record_state] at h2
      exact h2

/-- C7: for every serialized sequence of `RateLimiter.wait` calls on one
domain (the per-domain lock orders them; the clock is monotonic), any two
consecutive recorded request times are separated by at least the domain's
configured minimum interval (the per-domain override from CUSTOM_LIMITS or
the default); and a `wait` call touches only its own domain's entry, so
calls for a different domain are not constrained by it in any way. -/
theorem c7_per_domain_rate_limiting (cfg : RateConfig) (u : Url) (st : RateState)
    (gs : List ℤ) (t : ℤ) (d' : String) (hd : d' ≠ getDomain u) :
    List.Chain' (fun a b => a + getDelay cfg (getDomain u) ≤ b) (runWaits cfg u st gs) ∧
    rateLookup (RateLimiter.wait cfg st u t).2 d' = rateLookup st d' := by
  refine ⟨runWaits_chain cfg u st gs, ?_⟩
  unfold RateLimiter.wait rateLookup
  rw [List.find?_cons_of_neg]
  simp only [beq_iff_eq]
  exact fun hh => hd hh.symm

/-- C7 (witness): two serialized calls on one domain (delay 2 ticks) with
arrival offsets 0 and 5, and an unrelated domain untouched by the call. -/
theorem c7_per_domain_rate_limiting_witness :
    List.Chain'
        (fun a b => a + getDelay ⟨2, 1, 3⟩ (getDomain ⟨"http", "a.example", "/"⟩) ≤ b)
        (runWaits ⟨2, 1, 3⟩ ⟨"http", "a.example", "/"⟩ [] [0, 5]) ∧
    rateLookup (RateLimiter.wait ⟨2, 1, 3⟩ [] ⟨"http", "a.example", "/"⟩ 7).2
        "b.example" = rateLookup [] "b.example" :=
  c7_per_domain_rate_limiting ⟨2, 1, 3⟩ ⟨"http", "a.example", "/"⟩ [] [0, 5] 7
    "b.example" (by decide)

/-- Helper for C8: with unique URL keys, a URL that has a row has exactly
one row. -/
theorem countUrl_eq_one (store : List UrlRow) (u : String)
    (huniq : urlKeysUnique store) (h : (findUrlRow u store).isSome) :
    (store.filter (fun x => x.url == u)).length = 1 := by
  induction store with
  | nil => simp [findUrlRow] at h
  | cons a rest ih =>
    rw [urlKeysUnique, List.pairwise_cons] at huniq
    obtain ⟨ha, hrest⟩ := huniq
    by_cases hau : a.url = u
    · have hfilter : rest.filter (fun x => x.url == u) = [] := by
        rw [List.filter_eq_nil_iff]
        intro b hb
        simp only [beq_iff_eq]
        exact fun hbu => (ha b hb) (hau.trans hbu.symm)
      simp [List.filter_cons, hau, hfilter]
    · have hfind : (findUrlRow u rest).isSome := by
        unfold findUrlRow at h ⊢
        rw [List.find?_cons_of_neg _ (by simp [hau])] at h
        exact h
      have := ih hrest hfind
      simp [List.filter_cons, hau, this]

/-- C8: enqueue is idempotent. With unique URL keys, enqueueing a URL twice —
in one `add_urls` call or in two successive calls — leaves exactly one row
for it and preserves key uniqueness; if the URL already had a row, the
store is returned completely unchanged (so its status, whatever it was, is
untouched) and the returned count is 0; if it was unseen, exactly one
`pending` row is appended and only that insertion is counted. -/
theorem c8_idempotent_enqueue (store : List UrlRow) (u source stT dBy c : String)
    (huniq : urlKeysUnique store) :
    urlKeysUnique (add_urls [u, u] source stT dBy c store).1 ∧
    ((add_urls [u, u] source stT dBy c store).1.filter
        (fun r => r.url == u)).length = 1 ∧
    (add_urls [u] source stT dBy c (add_urls [u] source stT dBy c store).1).1 =
      (add_urls [u, u] source stT dBy c store).1 ∧
    ((findUrlRow u store).isSome →
        add_urls [u, u] source stT dBy c store = (store, 0) ∧
        add_urls [u] source stT dBy c (add_urls [u] source stT dBy c store).1 =
          (store, 0)) ∧
    (findUrlRow u store = none →
        (add_urls [u, u] source stT dBy c store).1 =
          store ++ [pendingRow u source stT dBy c] ∧
        (add_urls [u, u] source stT dBy c store).2 = 1 ∧
        (add_urls [u] source stT dBy c store).2 = 1 ∧
        (add_urls [u] source stT dBy c
            (add_urls [u] source stT dBy c store).1).2 = 0) := by
  by_cases hf : (findUrlRow u store).isSome
  · have h2 : add_urls [u, u] source stT dBy c store = (store, 0) := by
      simp [add_urls, hf]
    have h1 : add_urls [u] source stT dBy c store = (store, 0) := by
      simp [add_urls, hf]
    refine ⟨?_, ?_, ?_, fun _ => ⟨h2, ?_⟩, fun hnone => ?_⟩
    · rw [h2]; exact huniq
    · rw [h2]; exact countUrl_eq_one store u huniq hf
    · rw [h2, h1]; exact congrArg Prod.fst h1
    · rw [h1]; exact h1
    · rw [hnone] at hf; simp at hf
  · have hnone : findUrlRow u store = none := Option.not_isSome_iff_eq_none.mp hf
    have hnotmem : ∀ b ∈ store, b.url ≠ u := by
      intro b hb
      have := List.find?_eq_none.mp hnone b hb
      simpa using this
    have hrowfind :
        findUrlRow u (store ++ [pendingRow u source stT dBy c]) =
          some (pendingRow u source stT dBy c) := by
      unfold findUrlRow at hnone ⊢
      rw [List.find?_append, hnone]
      simp [pendingRow]
    have h1 : add_urls [u] source stT dBy c store =
        (store ++ [pendingRow u source stT dBy c], 1) := by
      simp [add_urls, hnone]
    have h2 : add_urls [u, u] source stT dBy c store =
        (store ++ [pendingRow u source stT dBy c], 1) := by
      simp [add_urls, hnone, hrowfind]
    have h3 : add_urls [u] source stT dBy c
        (store ++ [pendingRow u source stT dBy c]) =
        (store ++ [pendingRow u source stT dBy c], 0) := by
      simp [add_urls, hrowfind]
    have huniq' : urlKeysUnique (store ++ [pendingRow u source stT dBy c]) := by
      rw [urlKeysUnique, List.pairwise_append]
      refine ⟨huniq, List.pairwise_singleton _ _, ?_⟩
      intro a ha b hb
      rw [List.mem_singleton] at hb
      subst hb
      exact hnotmem a ha
    have hcount :
        ((store ++ [pendingRow u source stT dBy c]).filter
            (fun r => r.url == u)).length = 1 := by
      rw [List.filter_append]
      rw [List.filter_eq_nil_iff.mpr (by intro b hb; simpa using hnotmem b hb)]
      simp [pendingRow]
    refine ⟨?_, ?_, ?_, fun hs => ?_, fun _ => ⟨?_, ?_, ?_, ?_⟩⟩
    · rw [h2]; exact huniq'
    · rw [h2]; exact hcount
    · rw [h2, h1]; rw [h3]
    · rw [hnone] at hs; simp at hs
    · rw [h2]
    · rw [h2]
    · rw [h1]
    · rw [h1, h3]

/-- C8 (witness): a store already holding the URL in a non-pending state. -/
theorem c8_idempotent_enqueue_witness :
    urlKeysUnique (add_urls ["http://f.example/", "http://f.example/"] "search" "" "" "US"
        failedUrlDb.urls).1 ∧
    ((add_urls ["http://f.example/", "http://f.example/"] "search" "" "" "US"
        failedUrlDb.urls).1.filter (fun r => r.url == "http://f.example/")).length = 1 ∧
    (add_urls ["http://f.example/"] "search" "" "" "US"
        (add_urls ["http://f.example/"] "search" "" "" "US" failedUrlDb.urls).1).1 =
      (add_urls ["http://f.example/", "http://f.example/"] "search" "" "" "US"
        failedUrlDb.urls).1 ∧
    ((findUrlRow "http://f.example/" failedUrlDb.urls).isSome →
        add_urls ["http://f.example/", "http://f.example/"] "search" "" "" "US"
            failedUrlDb.urls = (failedUrlDb.urls, 0) ∧
        add_urls ["http://f.example/"] "search" "" "" "US"
            (add_urls ["http://f.example/"] "search" "" "" "US" failedUrlDb.urls).1 =
          (failedUrlDb.urls, 0)) ∧
    (findUrlRow "http://f.example/" failedUrlDb.urls = none →
        (add_urls ["http://f.example/", "http://f.example/"] "search" "" "" "US"
            failedUrlDb.urls).1 =
          failedUrlDb.urls ++ [pendingRow "http://f.example/" "search" "" "" "US"] ∧
        (add_urls ["http://f.example/", "http://f.example/"] "search" "" "" "US"
            failedUrlDb.urls).2 = 1 ∧
        (add_urls ["http://f.example/"] "search" "" "" "US" failedUrlDb.urls).2 = 1 ∧
        (add_urls ["http://f.example/"] "search" "" "" "US"
            (add_urls ["http://f.example/"] "search" "" "" "US"
              failedUrlDb.urls).1).2 = 0) :=
  c8_idempotent_enqueue failedUrlDb.urls "http://f.example/" "search" "" "" "US"
    (by simp [failedUrlDb, urlKeysUnique])

/-- Helper for C3: the upserted row is in the ledger after `mark_query_done`. -/
theorem mqd_row_mem (q : String) (rc uf : Nat) (jid : Option Nat) (T : Nat)
    (ledger : List QueryRow) :
    (⟨q, T, rc, uf, jid⟩ : QueryRow) ∈ mark_query_done q rc uf jid T ledger := by
  unfold mark_query_done
  dsimp only
  split
  · rename_i hany
    rw [List.any_eq_true] at hany
    obtain ⟨a, ha, haq⟩ := hany
    exact List.mem_map.mpr ⟨a, ha, by simp [haq]⟩
  · exact List.mem_append_right _ (List.mem_singleton_self _)

/-- Helper for C3: after `mark_query_done`, every row carrying the upserted
query text is exactly the upserted row. -/
theorem mqd_row_eq (q : String) (rc uf : Nat) (jid : Option Nat) (T : Nat)
    (ledger : List QueryRow) (r : QueryRow)
    (hr : r ∈ mark_query_done q rc uf jid T ledger) (hrq : r.query = q) :
    r = (⟨q, T, rc, uf, jid⟩ : QueryRow) := by
  unfold mark_query_done at hr
  dsimp only at hr
  split at hr
  · rw [List.mem_map] at hr
    obtain ⟨a, ha, rfl⟩ := hr
    by_cases haq : a.query = q
    · simp [haq]
    · simp only [beq_iff_eq, if_neg haq] at hrq ⊢
      exact absurd hrq haq
  · rename_i hany
    rw [List.mem_append] at hr
    cases hr with
    | inl h =>
      rw [Bool.not_eq_true, List.any_eq_false] at hany
      exact absurd hrq (by simpa using hany r h)
    | inr h => simpa using h

/-- Helper for C3: `mark_query_done` preserves the one-row-per-query
invariant. -/
theorem mqd_unique (q : String) (rc uf : Nat) (jid : Option Nat) (T : Nat)
    (ledger : List QueryRow) (huniq : uniqueQueryKeys ledger) :
    uniqueQueryKeys (mark_query_done q rc uf jid T ledger) := by
  unfold mark_query_done
  dsimp only
  split
  · have hpres : ∀ a : QueryRow,
        ((if a.query == q then (⟨q, T, rc, uf, jid⟩ : QueryRow) else a)).query = a.query := by
      intro a
      split
      · rename_i haq
        simp only [beq_iff_eq] at haq
        simp [haq]
      · rfl
    exact List.Pairwise.map _ (fun a b hab => by rw [hpres a, hpres b]; exact hab) huniq
  · rename_i hany
    rw [uniqueQueryKeys, List.pairwise_append]
    refine ⟨huniq, List.pairwise_singleton _ _, ?_⟩
    intro a ha b hb
    rw [List.mem_singleton] at hb
    subst hb
    intro haq
    exact (by simpa using hany : ¬ ledger.any (fun r => r.query == q) = true)
      (List.any_eq_true.mpr ⟨a, ha, by simp [haq]⟩)

/-- Helper for C3: with unique query keys, the upserted query has exactly
one row after `mark_query_done`. -/
theorem mqd_count_one (q : String) (rc uf : Nat) (jid : Option Nat) (T : Nat)
    (ledger : List QueryRow) (huniq : uniqueQueryKeys ledger) :
    ((mark_query_done q rc uf jid T ledger).filter
        (fun r => r.query == q)).length = 1 := by
  have huniq' := mqd_unique q rc uf jid T ledger huniq
  have hmem := mqd_row_mem q rc uf jid T ledger
  set l' := mark_query_done q rc uf jid T ledger with hl'
  clear_value l'
  clear hl' huniq
  induction l' with
  | nil => simp at hmem
  | cons a rest ih =>
    rw [uniqueQueryKeys, List.pairwise_cons] at huniq'
    obtain ⟨ha, hrest⟩ := huniq'
    rw [List.mem_cons] at hmem
    cases hmem with
    | inl h =>
      have haq : a.query = q := by rw [← h]
      have hfilter : rest.filter (fun r => r.query == q) = [] := by
        rw [List.filter_eq_nil_iff]
        intro b hb
        simp only [beq_iff_eq]
        exact fun hbq => (ha b hb) (haq.trans hbq.symm)
      simp [List.filter_cons, haq, hfilter]
    | inr h =>
      have haq : a.query ≠ q := by
        intro hq
        exact (ha _ h) (by simpa using hq)
      simp only [List.filter_cons, beq_iff_eq, if_neg haq]
      exact ih hrest h

/-- C3: a query marked done at time T is skipped by discovery at every time
strictly before T + ttl and is eligible again at or after T + ttl; and the
execution record upserts on the unique query text, so the ledger keeps
exactly one row for the query and its key uniqueness is preserved —
history is never duplicated. -/
theorem c3_query_dedup_ttl (ledger : List QueryRow) (q : String) (rc uf : Nat)
    (jid : Option Nat) (T ttl now later : Nat) (huniq : uniqueQueryKeys ledger) :
    uniqueQueryKeys (mark_query_done q rc uf jid T ledger) ∧
    ((mark_query_done q rc uf jid T ledger).filter
        (fun r => r.query == q)).length = 1 ∧
    (now < T + ttl →
        discoverySkips ttl now (mark_query_done q rc uf jid T ledger) q = true) ∧
    (T + ttl ≤ later →
        discoverySkips ttl later (mark_query_done q rc uf jid T ledger) q = false) := by
  refine ⟨mqd_unique q rc uf jid T ledger huniq,
          mqd_count_one q rc uf jid T ledger huniq, ?_, ?_⟩
  · intro hfresh
    unfold discoverySkips get_recent_queries
    rw [List.elem_iff]
    exact List.mem_map.mpr
      ⟨⟨q, T, rc, uf, jid⟩,
       List.mem_filter.mpr ⟨mqd_row_mem q rc uf jid T ledger, by simpa using hfresh⟩,
       rfl⟩
  · intro hstale
    rw [← Bool.not_eq_true]
    intro hskip
    unfold discoverySkips get_recent_queries at hskip
    rw [List.elem_iff] at hskip
    rw [List.mem_map] at hskip
    obtain ⟨r, hrf, hrq⟩ := hskip
    rw [List.mem_filter] at hrf
    obtain ⟨hrmem, hrfresh⟩ := hrf
    have hre := mqd_row_eq q rc uf jid T ledger r hrmem hrq
    rw [hre] at hrfresh
    simp only [decide_eq_true_eq] at hrfresh
    omega

/-- C3 (witness): a query done at T = 10 with ttl 5 is skipped at time 14
and eligible at time 15. -/
theorem c3_query_dedup_ttl_witness :
    uniqueQueryKeys (mark_query_done "q texas" 3 3 none 10 []) ∧
    ((mark_query_done "q texas" 3 3 none 10 []).filter
        (fun r => r.query == "q texas")).length = 1 ∧
    (14 < 10 + 5 →
        discoverySkips 5 14 (mark_query_done "q texas" 3 3 none 10 []) "q texas" = true) ∧
    (10 + 5 ≤ 15 →
        discoverySkips 5 15 (mark_query_done "q texas" 3 3 none 10 []) "q texas" = false) :=
  c3_query_dedup_ttl [] "q texas" 3 3 none 10 5 14 15 (by simp [uniqueQueryKeys])

end CattleScraper
